import Mathlib

/-!
Verification development for the generic parsing engine of the Solar/Sulk
Solidity compiler front end (`crates/parse/src/parser/mod.rs`): the token
cursor, the expectation-tracking diagnostic machinery, the generalized
separated-sequence parsing algorithm with error recovery, identifier
parsing with reserved-word rules, and the scoped context toggles.

The embedding is a shallow one: the mutable `Parser` struct becomes an
explicit `ParserState` threaded through every operation, the diagnostic
context's emit sink becomes an `emitted` list inside the state, the
external source map is reduced to the one predicate the core queries
(`is_multiline`), and the source's `while` loop is given explicit fuel.
Types that live outside the parser crate (tokens, spans, identifiers,
diagnostics) are modelled from the specification.
-/

namespace Solar

/-- A source span, a half-open byte range. Modelled from the spec: spans
anchor diagnostics; the dummy span is the all-zero span. -/
structure Span where
  lo : Nat
  hi : Nat
deriving DecidableEq

/-- Modelled from the spec: the dummy span. -/
def Span.DUMMY : Span := ⟨0, 0⟩

/-- Modelled from the spec: a span is dummy when it is the all-zero span. -/
def Span.isDummy (s : Span) : Bool := s == Span.DUMMY

/-- Modelled from the spec: the empty span at the end of this span. -/
def Span.shrinkToHi (s : Span) : Span := ⟨s.hi, s.hi⟩

/-- Modelled from the spec: the empty span at the start of this span. -/
def Span.shrinkToLo (s : Span) : Span := ⟨s.lo, s.lo⟩

/-- Modelled from the spec: the span from the start of `s` up to the start
of `e`. -/
def Span.untilSpan (s e : Span) : Span := ⟨s.lo, e.lo⟩

/-- Delimiters: parenthesis, brace, bracket. -/
inductive Delimiter where
  | paren
  | brace
  | bracket
deriving DecidableEq

/-- Token kinds. Modelled from the spec: punctuation, identifier tokens
(keywords are lexed as identifier tokens), delimiters, end-of-input, and
comments (which must be stripped before parsing). -/
inductive TokenKind where
  | ident (sym : String)
  | comma
  | colon
  | semi
  | dot
  | openDelim (d : Delimiter)
  | closeDelim (d : Delimiter)
  | eof
  | comment
deriving DecidableEq

/-- Modelled from the spec: the rendering of a token kind (its source
text), used inside backticks in diagnostics. -/
def TokenKind.toStr : TokenKind → String
  | .ident s => s
  | .comma => ","
  | .colon => ":"
  | .semi => ";"
  | .dot => "."
  | .openDelim .paren => "("
  | .openDelim .brace => "\x7b"
  | .openDelim .bracket => "["
  | .closeDelim .paren => ")"
  | .closeDelim .brace => "\x7d"
  | .closeDelim .bracket => "]"
  | .eof => "<eof>"
  | .comment => "<comment>"

/-- A token: a kind plus a source span. -/
structure Token where
  kind : TokenKind
  span : Span
deriving DecidableEq

/-- Modelled from the spec: the dummy placeholder token installed in
`token` and `prev_token` before the first advance. -/
def Token.DUMMY : Token := ⟨.eof, Span.DUMMY⟩

/-- Modelled from the spec: the synthetic end-of-input token. -/
def Token.EOF : Token := ⟨.eof, Span.DUMMY⟩

/-- Whether the token is the end-of-input token. -/
def Token.isEof (t : Token) : Bool := t.kind == .eof

/-- Whether the token is a comment token. -/
def Token.isComment (t : Token) : Bool := t.kind == .comment

/-- An identifier: symbol plus span. -/
structure Ident where
  name : String
  span : Span
deriving DecidableEq

/-- Modelled from the spec: the identifier carried by an identifier token
(keywords included), `token.ident()`. -/
def Token.ident? (t : Token) : Option Ident :=
  match t.kind with
  | .ident s => some ⟨s, t.span⟩
  | _ => none

/-- Whether the token is an identifier token, `token.is_ident()`. -/
def Token.isIdent (t : Token) : Bool := t.ident?.isSome

/-- Modelled from the spec: words reserved outside the Yul sub-language. -/
def solReservedWords : List String :=
  ["contract", "function", "mapping", "if", "else", "while", "for", "return",
   "pragma", "import", "struct", "enum"]

/-- Modelled from the spec: words reserved inside the Yul sub-language, a
different set from the plain-language one. -/
def yulReservedWords : List String :=
  ["let", "switch", "case", "default", "leave", "function", "if", "for"]

/-- Modelled from the spec: mode-aware reservation test,
`ident.is_reserved(in_yul)`. -/
def Ident.isReserved (i : Ident) (inYul : Bool) : Bool :=
  if inYul then yulReservedWords.contains i.name else solReservedWords.contains i.name

/-- Expectation records accumulated for diagnostics (`ExpectedToken`). -/
inductive ExpectedToken where
  | token (t : TokenKind)
  | keyword (kw : String)
  | lit
  | strLit
  | versionNumber
  | ident
  | path
  | elementaryType
deriving DecidableEq

/-- Textual rendering of an expectation record (its `Display` impl). -/
def ExpectedToken.render : ExpectedToken → String
  | .token t => "`" ++ t.toStr ++ "`"
  | .keyword kw => "`" ++ kw ++ "`"
  | .strLit => "string literal"
  | .versionNumber => "`*`, `X`, `x`, decimal integer literal"
  | .lit => "literal"
  | .ident => "identifier"
  | .path => "path"
  | .elementaryType => "elementary type name"

/-- Source `ExpectedToken::eq_kind`: only a token expectation of equal kind
matches a token kind. -/
def ExpectedToken.eqKind : ExpectedToken → TokenKind → Bool
  | .token kind, other => kind == other
  | _, _ => false

/-- Source `or_list`: joins renderings with commas and a final "or". -/
def orList (list : List String) : String :=
  let len := list.length
  (List.enum list).foldl
    (fun s p =>
      let i := p.1
      let t := p.2
      let s :=
        if i > 0 then
          let isLast := i == len - 1
          s ++ (if len > 2 && isLast then ", or "
                else if len == 2 && isLast then " or "
                else ", ")
        else s
      s ++ t) ""

/-- Source `ExpectedToken::to_string_many`. -/
def ExpectedToken.toStringMany (tokens : List ExpectedToken) : String :=
  orList (tokens.map ExpectedToken.render)

/-- Modelled from the spec: `token.full_description()`, the description of
the found token used in "expected ..., found ..." messages. -/
def Token.fullDescription (t : Token) : String :=
  match t.kind with
  | .ident s => "identifier `" ++ s ++ "`"
  | .eof => "<eof>"
  | k => "`" ++ k.toStr ++ "`"

/-- Severity of a sub-diagnostic. -/
inductive Level where
  | error
  | help
  | note
deriving DecidableEq

/-- A child sub-diagnostic (such as the product of `span_help`). -/
structure SubDiag where
  level : Level
  msg : String
  span : Span
deriving DecidableEq

/-- A structured diagnostic: primary message, primary span, labelled
sub-spans, and child sub-diagnostics. -/
structure Diag where
  msg : String
  span : Span
  labels : List (Span × String)
  children : List SubDiag
deriving DecidableEq

/-- Source `err.span_label(sp, msg)`. -/
def Diag.spanLabel (d : Diag) (sp : Span) (m : String) : Diag :=
  { d with labels := d.labels ++ [(sp, m)] }

/-- Source `err.span_help(sp, msg)`: attaches a help child. -/
def Diag.spanHelp (d : Diag) (sp : Span) (m : String) : Diag :=
  { d with children := d.children ++ [⟨.help, m, sp⟩] }

/-- Source `dcx.err(msg).span(span)`: a fresh error diagnostic. -/
def mkErr (m : String) (sp : Span) : Diag := ⟨m, sp, [], []⟩

/-- Outcome of a parsing operation: success, an error diagnostic carried
upward (`PResult::Err`), or a programming-error fault (panic; also used
for fuel exhaustion of the embedded loop). -/
inductive PRes (α : Type) where
  | ok (a : α)
  | err (d : Diag)
  | fault
deriving DecidableEq

/-- The parser state (`Parser`), with the session's emitted-diagnostics
sink inlined as a list and the external source map reduced to the one
predicate the core queries, `is_multiline`. -/
structure ParserState where
  token : Token
  prevToken : Token
  expectedTokens : List ExpectedToken
  lastUnexpectedTokenSpan : Option Span
  inYul : Bool
  inContract : Bool
  tokens : List Token
  emitted : List Diag
  isMultiline : Span → Bool

/-- Emitting a diagnostic to the session sink (`err.emit()`). A cancelled
diagnostic (`err.cancel()`) simply never reaches this sink. -/
def emit (st : ParserState) (d : Diag) : ParserState :=
  { st with emitted := st.emitted ++ [d] }

/-- Source `inlined_bump_with`: the current-to-previous shift; clears the
expectation set. -/
def inlined_bump_with (st : ParserState) (next : Token) : ParserState :=
  { st with prevToken := st.token, token := next, expectedTokens := [] }

/-- Source `bump`: advance by one token (end-of-input when exhausted),
with the dummy-span location tweak. -/
def bump (st : ParserState) : ParserState :=
  let next0 := st.tokens.head?.getD Token.EOF
  let next := if next0.span.isDummy then { next0 with span := st.token.span } else next0
  inlined_bump_with { st with tokens := st.tokens.tail } next

/-- Source `bump_with`. -/
def bump_with (st : ParserState) (next : Token) : ParserState :=
  inlined_bump_with st next

/-- Source `look_ahead`: distance 0 is the current token; farther distances
index the unconsumed remainder, end-of-input beyond it. -/
def look_ahead (st : ParserState) (dist : Nat) : Token :=
  if dist = 0 then st.token else (st.tokens[dist - 1]?).getD Token.EOF

/-- Source `check_noexpect`. -/
def check_noexpect (st : ParserState) (tok : TokenKind) : Bool :=
  st.token.kind == tok

/-- Source `check`: test the current token without consuming it; register
the expectation on mismatch. -/
def check (st : ParserState) (tok : TokenKind) : ParserState × Bool :=
  let isPresent := check_noexpect st tok
  if isPresent then (st, true)
  else ({ st with expectedTokens := st.expectedTokens ++ [.token tok] }, false)

/-- Source `eat`: `check` plus conditional advance. -/
def eat (st : ParserState) (tok : TokenKind) : ParserState × Bool :=
  let p := check st tok
  if p.2 then (bump p.1, true) else (p.1, false)

/-- Source `check_keyword`: always registers the keyword expectation, then
tests the current token against the keyword. -/
def check_keyword (st : ParserState) (kw : String) : ParserState × Bool :=
  let st := { st with expectedTokens := st.expectedTokens ++ [.keyword kw] }
  (st, st.token.kind == .ident kw)

/-- Source `check_or_expected`: abstract-category probe; registers the
category on failure. -/
def check_or_expected (st : ParserState) (ok : Bool) (t : ExpectedToken) : ParserState × Bool :=
  if ok then (st, true)
  else ({ st with expectedTokens := st.expectedTokens ++ [t] }, false)

/-- Source `expect_any`: checks each ket in order (registering
expectations) until one matches. -/
def expect_any (st : ParserState) (kets : List TokenKind) : ParserState × Bool :=
  match kets with
  | [] => (st, false)
  | k :: rest =>
    let p := check st k
    if p.2 then (p.1, true) else expect_any p.1 rest

/-- Source `unexpected_error_with`: the diagnostic built by a failed
`expect` when the expectation set is empty. -/
def unexpected_error_with (st : ParserState) (t : TokenKind) : Diag :=
  let prevSpan :=
    if st.prevToken.span.isDummy then st.token.span
    else if st.token.isEof then st.prevToken.span
    else st.prevToken.span.shrinkToHi
  let span := st.token.span
  let thisTokenStr := st.token.fullDescription
  let labelExp := "expected `" ++ t.toStr ++ "`"
  let msg := labelExp ++ ", found " ++ thisTokenStr
  let e := mkErr msg span
  if !(st.isMultiline (prevSpan.untilSpan span)) then
    e.spanLabel span labelExp
  else
    (e.spanLabel prevSpan labelExp).spanLabel span "unexpected token"

/-- Inner helper of the suggestion filter in `expected_one_of_not_found`:
the found token is an identifier spelling the suggested keyword. -/
def isIdentEqKeyword (found : TokenKind) (expected : ExpectedToken) : Bool :=
  match found with
  | .ident currentSym =>
    match expected with
    | .keyword suggestedSym => currentSym == suggestedSym
    | _ => false
  | _ => false

/-- The filter closure of `expected_one_of_not_found`, deciding whether a
suggestion is kept. -/
def keepSuggestion (found : TokenKind) (tok : ExpectedToken) : Bool :=
  if !(tok.eqKind found) then
    let eq := isIdentEqKeyword found tok
    if !eq then
      match tok with
      | .token kind => if kind == found then false else true
      | _ => true
    else false
  else false

/-- Byte-wise comparison of character lists: the order in which
`sort_by_cached_key(ToString::to_string)` sorts rendered suggestions. -/
def charsLe : List Char → List Char → Bool
  | [], _ => true
  | _ :: _, [] => false
  | a :: as, b :: bs =>
    if a.toNat < b.toNat then true
    else if b.toNat < a.toNat then false
    else charsLe as bs

/-- Lexicographic string comparison used as the sort key order. -/
def strLe (a b : String) : Bool := charsLe a.data b.data

/-- The sort order on expectation records: by rendered text. -/
def renderLe (a b : ExpectedToken) : Prop := strLe a.render b.render = true

instance : DecidableRel renderLe :=
  fun a b => inferInstanceAs (Decidable (strLe a.render b.render = true))

/-- Source `Vec::dedup`: removes consecutive equal records. -/
def dedupVec : List ExpectedToken → List ExpectedToken
  | [] => []
  | [a] => [a]
  | a :: b :: rest =>
    if a == b then dedupVec (b :: rest) else a :: dedupVec (b :: rest)

/-- The candidate list built by `expected_one_of_not_found`: merge the
edible/inedible sets with the accumulated expectations, filter, stable-sort
by rendered text, then `Vec::dedup`. -/
def buildCandidates (found : TokenKind) (edible inedible : List TokenKind)
    (expectedTokens : List ExpectedToken) : List ExpectedToken :=
  dedupVec (List.insertionSort renderLe
    (((edible ++ inedible).map ExpectedToken.token ++ expectedTokens).filter
      (fun tok => keepSuggestion found tok)))

/-- The message and label chosen by `expected_one_of_not_found`, by
candidate cardinality. -/
def notFoundParts (expected : List ExpectedToken) (actual : String) (prevSpan : Span) :
    String × Span × String :=
  match expected.length with
  | 0 => ("unexpected token: " ++ actual, (prevSpan, "unexpected token after this"))
  | 1 =>
    let expectS := ExpectedToken.toStringMany expected
    ("expected " ++ expectS ++ ", found " ++ actual,
      (prevSpan.shrinkToHi, "expected " ++ expectS))
  | len =>
    let expectS := ExpectedToken.toStringMany expected
    let fmt := "expected one of " ++ expectS ++ ", found " ++ actual
    let shortExpect := if len > 6 then toString len ++ " possible tokens" else expectS
    (fmt, (prevSpan.shrinkToHi, "expected one of " ++ shortExpect))

/-- Source `expected_one_of_not_found`: builds the unexpected-token
diagnostic, records the offending span, and returns the diagnostic as an
error. -/
def expected_one_of_not_found (st : ParserState) (edible inedible : List TokenKind) :
    ParserState × PRes Bool :=
  let expected := buildCandidates st.token.kind edible inedible st.expectedTokens
  let actual := st.token.fullDescription
  let parts := notFoundParts expected actual st.prevToken.span
  let labelSpan := if st.token.isEof then st.prevToken.span else parts.2.1
  let labelExp := parts.2.2
  let st' := { st with lastUnexpectedTokenSpan := some st.token.span }
  let e := mkErr parts.1 st.token.span
  let e :=
    if st.prevToken.span.isDummy
        || !(st.isMultiline (st.token.span.shrinkToHi.untilSpan labelSpan.shrinkToLo)) then
      e.spanLabel st.token.span labelExp
    else
      (e.spanLabel labelSpan labelExp).spanLabel st.token.span "unexpected token"
  (st', .err e)

/-- Source `expect_one_of`: consume an edible token, keep an inedible one
in place, abort on a repeated failure at an already-recorded span, and
otherwise build the unexpected-token error. -/
def expect_one_of (st : ParserState) (edible inedible : List TokenKind) :
    ParserState × PRes Bool :=
  if st.token.kind ∈ edible then (bump st, .ok false)
  else if st.token.kind ∈ inedible then (st, .ok false)
  else if st.token.kind ≠ TokenKind.eof
      ∧ st.lastUnexpectedTokenSpan = some st.token.span then
    (st, .fault)
  else expected_one_of_not_found st edible inedible

/-- Source `expect`: fast path when no expectations are accumulated,
otherwise `expect_one_of`. -/
def expect (st : ParserState) (tok : TokenKind) : ParserState × PRes Bool :=
  if st.expectedTokens.isEmpty then
    if check_noexpect st tok then (bump st, .ok false)
    else (st, .err (unexpected_error_with st tok))
  else expect_one_of st [tok] []

/-- Source `unexpected_error`: the generic unexpected-token error; a
successful `expect_one_of` here is a programming-error fault. -/
def unexpected_error (st : ParserState) : ParserState × PRes Diag :=
  match expect_one_of st [] [] with
  | (st, .ok _) => (st, .fault)
  | (st, .err e) => (st, .ok e)
  | (st, .fault) => (st, .fault)

/-- Source `SeqSep`: the separator policy. -/
structure SeqSep where
  sep : Option TokenKind
  trailingSepAllowed : Bool
  trailingSepRequired : Bool

/-- Source `SeqSep::trailing_enforced`. -/
def SeqSep.trailingEnforced (t : TokenKind) : SeqSep := ⟨some t, true, true⟩

/-- Source `SeqSep::trailing_allowed`. -/
def SeqSep.trailingAllowed (t : TokenKind) : SeqSep := ⟨some t, true, false⟩

/-- Source `SeqSep::trailing_disallowed`. -/
def SeqSep.trailingDisallowed (t : TokenKind) : SeqSep := ⟨some t, false, false⟩

/-- Source `SeqSep::none`. -/
def SeqSep.noSep : SeqSep := ⟨none, false, false⟩

/-- The defensive bailout test of the sequence loop: an unrelated closing
delimiter or end-of-input. -/
def isCloseDelimOrEof : TokenKind → Bool
  | .closeDelim _ => true
  | .eof => true
  | _ => false

/-- The `while` loop of `parse_seq_to_before_tokens`, with explicit fuel
(fuel exhaustion is a fault, standing for divergence). Arguments after the
fuel: the state, then the loop variables `first`, `recovered`, `trailing`,
and the collected elements `v`. -/
def parse_seq_loop {α : Type} (kets : List TokenKind) (sep : SeqSep)
    (f : ParserState → ParserState × PRes α) :
    Nat → ParserState → Bool → Bool → Bool → List α →
      ParserState × PRes (List α × Bool × Bool)
  | 0, st, _, _, _, _ => (st, .fault)
  | fuel + 1, st, first, recovered, trailing, v =>
    let pk := expect_any st kets
    let st1 := pk.1
    if pk.2 then (st1, .ok (v, trailing, recovered))
    else if isCloseDelimOrEof st1.token.kind then (st1, .ok (v, trailing, recovered))
    else
      let element := fun (st : ParserState) (first : Bool) (v : List α) =>
        let pt := if sep.trailingSepAllowed then expect_any st kets else (st, false)
        if pt.2 then (pt.1, .ok (v, true, recovered))
        else
          match f pt.1 with
          | (st3, .ok t) =>
            parse_seq_loop kets sep f fuel st3 first recovered trailing (v ++ [t])
          | (st3, .err e) => (st3, .err e)
          | (st3, .fault) => (st3, .fault)
      match sep.sep with
      | none => element st1 first v
      | some tk =>
        if first then element st1 false v
        else
          match expect st1 tk with
          | (st2, .ok recovered_) =>
            if recovered_ then (st2, .ok (v, trailing, true)) else element st2 first v
          | (st2, .err expectErr) =>
            if sep.trailingSepRequired then (st2, .err expectErr)
            else
              let sp := st2.prevToken.span.shrinkToHi
              match f st2 with
              | (st3, .ok t) =>
                let tokenStr := tk.toStr
                let expectErr2 := expectErr.spanHelp sp ("missing `" ++ tokenStr ++ "`")
                parse_seq_loop kets sep f fuel (emit st3 expectErr2) first recovered trailing
                  (v ++ [t])
              | (st3, .err e) =>
                let expectErr2 := { expectErr with children := expectErr.children ++ e.children }
                if st3.token.kind = TokenKind.colon then (st3, .err expectErr2)
                else if kets = [TokenKind.closeDelim Delimiter.paren] then (st3, .err expectErr2)
                else (emit st3 expectErr2, .ok (v, trailing, recovered))
              | (st3, .fault) => (st3, .fault)
          | (st2, .fault) => (st2, .fault)

/-- Source `parse_seq_to_before_tokens`: the loop started with `first`
true, `recovered` and `trailing` false, and no collected elements. -/
def parse_seq_to_before_tokens {α : Type} (fuel : Nat) (kets : List TokenKind) (sep : SeqSep)
    (f : ParserState → ParserState × PRes α) (st : ParserState) :
    ParserState × PRes (List α × Bool × Bool) :=
  parse_seq_loop kets sep f fuel st true false false []

/-- Source `parse_seq_to_before_end`. -/
def parse_seq_to_before_end {α : Type} (fuel : Nat) (ket : TokenKind) (sep : SeqSep)
    (f : ParserState → ParserState × PRes α) (st : ParserState) :
    ParserState × PRes (List α × Bool × Bool) :=
  parse_seq_to_before_tokens fuel [ket] sep f st

/-- Source `parse_seq_to_end`: additionally eats the terminator unless the
inner call signalled recovery. -/
def parse_seq_to_end {α : Type} (fuel : Nat) (ket : TokenKind) (sep : SeqSep)
    (f : ParserState → ParserState × PRes α) (st : ParserState) :
    ParserState × PRes (List α × Bool) :=
  match parse_seq_to_before_end fuel ket sep f st with
  | (st1, .ok (val, trailing, recovered)) =>
    let st2 := if !recovered then (eat st1 ket).1 else st1
    (st2, .ok (val, trailing))
  | (st1, .err e) => (st1, .err e)
  | (st1, .fault) => (st1, .fault)

/-- Source `parse_unspanned_seq`: expects the opening delimiter first,
unconditionally. -/
def parse_unspanned_seq {α : Type} (fuel : Nat) (bra ket : TokenKind) (sep : SeqSep)
    (f : ParserState → ParserState × PRes α) (st : ParserState) :
    ParserState × PRes (List α × Bool) :=
  match expect st bra with
  | (st1, .ok _) => parse_seq_to_end fuel ket sep f st1
  | (st1, .err e) => (st1, .err e)
  | (st1, .fault) => (st1, .fault)

/-- Source `parse_delim_seq`. -/
def parse_delim_seq {α : Type} (fuel : Nat) (delim : Delimiter) (sep : SeqSep)
    (f : ParserState → ParserState × PRes α) (st : ParserState) :
    ParserState × PRes (List α × Bool) :=
  parse_unspanned_seq fuel (.openDelim delim) (.closeDelim delim) sep f st

/-- Source `parse_delim_comma_seq`. -/
def parse_delim_comma_seq {α : Type} (fuel : Nat) (delim : Delimiter)
    (f : ParserState → ParserState × PRes α) (st : ParserState) :
    ParserState × PRes (List α × Bool) :=
  parse_delim_seq fuel delim (SeqSep.trailingDisallowed .comma) f st

/-- Source `parse_paren_comma_seq`. -/
def parse_paren_comma_seq {α : Type} (fuel : Nat)
    (f : ParserState → ParserState × PRes α) (st : ParserState) :
    ParserState × PRes (List α × Bool) :=
  parse_delim_comma_seq fuel .paren f st

/-- Source `parse_nodelim_comma_seq`. -/
def parse_nodelim_comma_seq {α : Type} (fuel : Nat) (stop : TokenKind)
    (f : ParserState → ParserState × PRes α) (st : ParserState) :
    ParserState × PRes (List α × Bool) :=
  match parse_seq_to_before_end fuel stop (SeqSep.trailingDisallowed .comma) f st with
  | (st1, .ok (v, trailing, _recovered)) => (st1, .ok (v, trailing))
  | (st1, .err e) => (st1, .err e)
  | (st1, .fault) => (st1, .fault)

/-- Source `in_contract`: runs `f` with the contract flag set, restoring
the prior value afterwards. -/
def in_contract {R : Type} (st : ParserState) (f : ParserState → ParserState × R) :
    ParserState × R :=
  let old := st.inContract
  let p := f { st with inContract := true }
  ({ p.1 with inContract := old }, p.2)

/-- Source `in_yul`: runs `f` with the Yul flag set, restoring the prior
value afterwards. -/
def in_yul {R : Type} (st : ParserState) (f : ParserState → ParserState × R) :
    ParserState × R :=
  let old := st.inYul
  let p := f { st with inYul := true }
  ({ p.1 with inYul := old }, p.2)

/-- Source `Parser::new`: dummy cursor tokens, then one initializing
advance. The source `debug_assert`s that no token is a comment. -/
def ParserState.new (isMultiline : Span → Bool) (tokens : List Token) : ParserState :=
  bump
    { token := Token.DUMMY, prevToken := Token.DUMMY, expectedTokens := [],
      lastUnexpectedTokenSpan := none, inYul := false, inContract := false,
      tokens := tokens, emitted := [], isMultiline := isMultiline }

/-- Source `expected_ident_found` specialized to `recover = false`: no
recovery attempt, no emission, always an error. This is the instance used
by the inner retry and by `expected_ident_found_err`. -/
def expected_ident_found_norec (st : ParserState) : ParserState × PRes Ident :=
  let msg := "expected identifier, found " ++ st.token.fullDescription
  let span := st.token.span
  let e := mkErr msg span
  let suggestRemoveComma := st.token.kind == TokenKind.comma && (look_ahead st 1).isIdent
  let e := if suggestRemoveComma then e.spanHelp span "remove this comma" else e
  (st, .err e)

/-- Source `ident_or_err` with `recover = false`. -/
def ident_or_err_norec (st : ParserState) : ParserState × PRes Ident :=
  match st.token.ident? with
  | some ident => (st, .ok ident)
  | none => expected_ident_found_norec st

/-- Source `expected_ident_found`: the identifier-expected diagnostic, with
the comma-elision recovery (consume the comma, retry once, emit non-fatally
on success). -/
def expected_ident_found (st : ParserState) (recover : Bool) : ParserState × PRes Ident :=
  let msg := "expected identifier, found " ++ st.token.fullDescription
  let span := st.token.span
  let e := mkErr msg span
  let suggestRemoveComma := st.token.kind == TokenKind.comma && (look_ahead st 1).isIdent
  let pr :=
    if suggestRemoveComma && recover then
      match ident_or_err_norec (bump st) with
      | (stb, .ok ident) => (stb, some ident)
      | (stb, _) => (stb, none)
    else (st, (none : Option Ident))
  let e := if suggestRemoveComma then e.spanHelp span "remove this comma" else e
  if recover then
    match pr.2 with
    | some ident => (emit pr.1 e, .ok ident)
    | none => (pr.1, .err e)
  else (pr.1, .err e)

/-- Source `ident_or_err`. -/
def ident_or_err (st : ParserState) (recover : Bool) : ParserState × PRes Ident :=
  match st.token.ident? with
  | some ident => (st, .ok ident)
  | none => expected_ident_found st recover

/-- Source `expected_ident_found_err`:
`expected_ident_found(false).unwrap_err()`. -/
def expected_ident_found_err (st : ParserState) : Diag :=
  match (expected_ident_found_norec st).2 with
  | .err d => d
  | _ => mkErr "" Span.DUMMY

/-- Source `parse_ident_common`: requires a non-reserved identifier; a
reserved one is emitted non-fatally and accepted under recovery, a hard
error otherwise. -/
def parse_ident_common (st : ParserState) (recover : Bool) : ParserState × PRes Ident :=
  match ident_or_err st recover with
  | (st1, .ok ident) =>
    if ident.isReserved st1.inYul then
      let e := expected_ident_found_err st1
      if recover then (bump (emit st1 e), .ok ident)
      else (st1, .err e)
    else (bump st1, .ok ident)
  | other => other

/-- Source `parse_ident`. -/
def parse_ident (st : ParserState) : ParserState × PRes Ident :=
  parse_ident_common st true

/-- Source `parse_ident_any`: does not check reservation. -/
def parse_ident_any (st : ParserState) : ParserState × PRes Ident :=
  match ident_or_err st true with
  | (st1, .ok ident) => (bump st1, .ok ident)
  | other => other

/-! Claim-side definitions and concrete scenarios used by the theorems. -/

/-- A source map in which no gap crosses a line boundary (single-line
inputs). -/
def smFalse : Span → Bool := fun _ => false

/-- Computable prefix test on character lists. -/
def listStarts : List Char → List Char → Bool
  | [], _ => true
  | _ :: _, [] => false
  | a :: as, b :: bs => a == b && listStarts as bs

/-- Computable prefix test on strings (the first string is the candidate
prefix of the second). -/
def strStarts (p s : String) : Bool := listStarts p.data s.data

/-- The drop rule of claim C4 read structurally: a token expectation of the
same kind as the found token, or a keyword expectation spelling the found
identifier token's text. -/
def dropSpec (found : TokenKind) (e : ExpectedToken) : Bool :=
  (match e with
   | .token k => k == found
   | _ => false)
  ||
  (match found, e with
   | .ident s, .keyword kw => s == kw
   | _, _ => false)

/-- Follows the claim's words for C4: deduplicate the sorted candidate list
by textual rendering — adjacent entries with equal renderings collapse even
when the records differ. Used only to exhibit where the claim diverges from
the code's `Vec::dedup`. -/
def dedupByRender : List ExpectedToken → List ExpectedToken
  | [] => []
  | [a] => [a]
  | a :: b :: rest =>
    if a.render == b.render then dedupByRender (b :: rest)
    else a :: dedupByRender (b :: rest)

/-- Follows the claim's words for C4: the message produced when the merged,
filtered, sorted candidate list is deduplicated by textual rendering. -/
def claimMessageC4 (found : Token) (edible inedible : List TokenKind)
    (acc : List ExpectedToken) : String :=
  let cands := dedupByRender (List.insertionSort renderLe
    (((edible ++ inedible).map ExpectedToken.token ++ acc).filter
      (fun tok => keepSuggestion found.kind tok)))
  (notFoundParts cands found.fullDescription Span.DUMMY).1

/-- The diagnostic built by `expected_one_of_not_found` (projection of its
error result). -/
def builtDiag (st : ParserState) (edible inedible : List TokenKind) : Diag :=
  match (expected_one_of_not_found st edible inedible).2 with
  | .err d => d
  | _ => mkErr "" Span.DUMMY

/-- The token sequence of the source input `(x y)`. -/
def parenXYTokens : List Token :=
  [⟨.openDelim .paren, ⟨0, 1⟩⟩, ⟨.ident "x", ⟨1, 2⟩⟩,
   ⟨.ident "y", ⟨3, 4⟩⟩, ⟨.closeDelim .paren, ⟨4, 5⟩⟩]

/-- Parsing `(x y)` as a parenthesized comma-separated identifier list. -/
def parenXYRun : ParserState × PRes (List Ident × Bool) :=
  parse_paren_comma_seq 10 parse_ident (ParserState.new smFalse parenXYTokens)

/-- A parser state at the token `;` with an empty expectation set, as
produced right after an advance (used for the C3 counterexample). -/
def c3State : ParserState :=
  { token := ⟨.semi, ⟨5, 6⟩⟩, prevToken := ⟨.ident "a", ⟨0, 1⟩⟩, expectedTokens := [],
    lastUnexpectedTokenSpan := none, inYul := false, inContract := false,
    tokens := [], emitted := [], isMultiline := smFalse }

/-- The state `c3State` with the span of its current token already recorded
as the last unexpected-token span (used to exhibit the fault branch of
`expect_one_of`). -/
def c3FaultState : ParserState :=
  { token := ⟨.semi, ⟨5, 6⟩⟩, prevToken := ⟨.ident "a", ⟨0, 1⟩⟩, expectedTokens := [],
    lastUnexpectedTokenSpan := some ⟨5, 6⟩, inYul := false, inContract := false,
    tokens := [], emitted := [], isMultiline := smFalse }

/-- A parser state at the token `;` whose expectation set holds the keyword
expectation `x` (used for the C4 counterexample together with the edible
token expectation for the identifier `x`: the two render identically but
are distinct records). -/
def c4State : ParserState :=
  { token := ⟨.semi, ⟨5, 6⟩⟩, prevToken := ⟨.ident "a", ⟨0, 1⟩⟩,
    expectedTokens := [.keyword "x"], lastUnexpectedTokenSpan := none,
    inYul := false, inContract := false, tokens := [], emitted := [], isMultiline := smFalse }

/-- A mid-sequence parser state: sitting at `y` after having parsed `x`,
with the closing token still ahead (used to instantiate the recovery-step
theorems). -/
def midSeqState : ParserState :=
  { token := ⟨.ident "y", ⟨3, 4⟩⟩, prevToken := ⟨.ident "x", ⟨1, 2⟩⟩, expectedTokens := [],
    lastUnexpectedTokenSpan := none, inYul := false, inContract := false,
    tokens := [⟨.closeDelim .brace, ⟨4, 5⟩⟩], emitted := [], isMultiline := smFalse }

/-- The kets used with `midSeqState`. -/
def midKets : List TokenKind := [.closeDelim .brace]

/-- The state after the failed ket probe at `midSeqState`. -/
def midSt1 : ParserState := (expect_any midSeqState midKets).1

/-- The state after the failed separator expectation at `midSt1`. -/
def midSt2 : ParserState := (expect midSt1 .comma).1

/-- The separator-expectation diagnostic produced at `midSt1`. -/
def midErr : Diag :=
  match (expect midSt1 .comma).2 with
  | .err d => d
  | _ => mkErr "" Span.DUMMY

/-- The state after a successful speculative identifier parse at
`midSt2`. -/
def midSt3 : ParserState := (parse_ident midSt2).1

/-- A fixed element-failure diagnostic carrying one child sub-diagnostic
(used to instantiate the failed-speculation step of C2). -/
def midFailDiag : Diag := ⟨"bad element", ⟨9, 9⟩, [], [⟨.note, "child note", ⟨9, 9⟩⟩]⟩

/-- An element parser that always fails with `midFailDiag`. -/
def alwaysFailElem : ParserState → ParserState × PRes Ident :=
  fun st => (st, .err midFailDiag)

/-- A parser state at the reserved word `contract` (used for C7). -/
def reservedState : ParserState :=
  { token := ⟨.ident "contract", ⟨0, 8⟩⟩, prevToken := Token.DUMMY, expectedTokens := [],
    lastUnexpectedTokenSpan := none, inYul := false, inContract := false,
    tokens := [⟨.semi, ⟨8, 9⟩⟩], emitted := [], isMultiline := smFalse }

/-- A parser state at `, foo` in an identifier position (used for C8). -/
def commaFooState : ParserState :=
  { token := ⟨.comma, ⟨0, 1⟩⟩, prevToken := ⟨.ident "bar", ⟨0, 0⟩⟩, expectedTokens := [],
    lastUnexpectedTokenSpan := none, inYul := false, inContract := false,
    tokens := [⟨.ident "foo", ⟨2, 5⟩⟩], emitted := [], isMultiline := smFalse }

/-- The token sequence of the source input `(x)`. -/
def parenXTokens : List Token :=
  [⟨.openDelim .paren, ⟨0, 1⟩⟩, ⟨.ident "x", ⟨1, 2⟩⟩, ⟨.closeDelim .paren, ⟨2, 3⟩⟩]

/-- The state on `(x)` after the opening parenthesis has been consumed. -/
def parenXAfterBra : ParserState := bump (ParserState.new smFalse parenXTokens)

/-- The state after parsing the body of `(x)` up to (not including) the
closing parenthesis. -/
def parenXBeforeEndSt : ParserState :=
  (parse_seq_to_before_end 10 (TokenKind.closeDelim .paren)
    (SeqSep.trailingDisallowed .comma) parse_ident parenXAfterBra).1

/-! Helper lemmas. -/

/-- The embedded `or_list` agrees with the source's unit-test vector. -/
theorem orList_matches_source_tests :
    orList [] = ""
    ∧ orList ["`<eof>`"] = "`<eof>`"
    ∧ orList ["integer", "identifier"] = "integer or identifier"
    ∧ orList ["path", "string literal", "`&&`"] = "path, string literal, or `&&`"
    ∧ orList ["`&&`", "`||`", "`&&`", "`||`"] = "`&&`, `||`, `&&`, or `||`" := by
  refine ⟨rfl, by decide, by decide, by decide, by decide⟩

theorem charsLe_cons_iff {a b : Char} {as bs : List Char} :
    charsLe (a :: as) (b :: bs) = true ↔
      a.toNat < b.toNat ∨ (a.toNat = b.toNat ∧ charsLe as bs = true) := by
  rw [charsLe]
  split
  · rename_i h
    simp [h]
  · split
    · rename_i h1 h2
      simp only [Bool.false_eq_true, false_iff]
      rintro (h | ⟨h, -⟩) <;> omega
    · rename_i h1 h2
      have : a.toNat = b.toNat := by omega
      simp [this, h1]

theorem charsLe_total : ∀ as bs : List Char, charsLe as bs = true ∨ charsLe bs as = true
  | [], _ => Or.inl rfl
  | _ :: _, [] => Or.inr rfl
  | a :: as, b :: bs => by
    rcases Nat.lt_trichotomy a.toNat b.toNat with h | h | h
    · exact Or.inl (charsLe_cons_iff.mpr (Or.inl h))
    · rcases charsLe_total as bs with h' | h'
      · exact Or.inl (charsLe_cons_iff.mpr (Or.inr ⟨h, h'⟩))
      · exact Or.inr (charsLe_cons_iff.mpr (Or.inr ⟨h.symm, h'⟩))
    · exact Or.inr (charsLe_cons_iff.mpr (Or.inl h))

theorem charsLe_trans :
    ∀ as bs cs : List Char,
      charsLe as bs = true → charsLe bs cs = true → charsLe as cs = true
  | [], _, _, _, _ => rfl
  | _ :: _, [], _, h1, _ => by simp [charsLe] at h1
  | _ :: _, _ :: _, [], _, h2 => by simp [charsLe] at h2
  | a :: as, b :: bs, c :: cs, h1, h2 => by
    rcases charsLe_cons_iff.mp h1 with hab | ⟨hab, h1'⟩ <;>
      rcases charsLe_cons_iff.mp h2 with hbc | ⟨hbc, h2'⟩
    · exact charsLe_cons_iff.mpr (Or.inl (Nat.lt_trans hab hbc))
    · exact charsLe_cons_iff.mpr (Or.inl (hbc ▸ hab))
    · exact charsLe_cons_iff.mpr (Or.inl (hab ▸ hbc))
    · exact charsLe_cons_iff.mpr (Or.inr ⟨hab.trans hbc, charsLe_trans as bs cs h1' h2'⟩)

instance : IsTotal ExpectedToken renderLe :=
  ⟨fun a b => charsLe_total a.render.data b.render.data⟩

instance : IsTrans ExpectedToken renderLe :=
  ⟨fun _ _ _ h1 h2 => charsLe_trans _ _ _ h1 h2⟩

theorem dedupVec_sublist : ∀ l : List ExpectedToken, (dedupVec l).Sublist l
  | [] => List.Sublist.refl _
  | [a] => List.Sublist.refl _
  | a :: b :: rest => by
    rw [dedupVec]
    split
    · exact (dedupVec_sublist (b :: rest)).cons a
    · exact (dedupVec_sublist (b :: rest)).cons₂ a

theorem mem_dedupVec : ∀ (l : List ExpectedToken) (a : ExpectedToken), a ∈ dedupVec l ↔ a ∈ l
  | [], a => Iff.rfl
  | [b], a => Iff.rfl
  | b :: c :: rest, a => by
    rw [dedupVec]
    split
    · rename_i h
      rw [mem_dedupVec (c :: rest) a]
      simp only [beq_iff_eq] at h
      subst h
      simp
    · simp [mem_dedupVec (c :: rest) a]

/-- The convoluted keep-filter of the source is the negation of the
structural drop rule of the claim. -/
theorem keep_iff_not_drop (found : TokenKind) (e : ExpectedToken) :
    keepSuggestion found e = !dropSpec found e := by
  cases e with
  | token k =>
    cases hk : k == found <;> cases found <;>
      simp_all [keepSuggestion, dropSpec, ExpectedToken.eqKind, isIdentEqKeyword]
  | keyword kw =>
    cases found with
    | ident s =>
      cases hs : s == kw <;>
        simp [keepSuggestion, dropSpec, ExpectedToken.eqKind, isIdentEqKeyword, hs]
    | comma => rfl
    | colon => rfl
    | semi => rfl
    | dot => rfl
    | openDelim d => rfl
    | closeDelim d => rfl
    | eof => rfl
    | comment => rfl
  | lit => cases found <;> rfl
  | strLit => cases found <;> rfl
  | versionNumber => cases found <;> rfl
  | ident => cases found <;> rfl
  | path => cases found <;> rfl
  | elementaryType => cases found <;> rfl

/-- Membership in the built candidate list is membership in the filtered
merge. -/
theorem mem_buildCandidates (found : TokenKind) (edible inedible : List TokenKind)
    (acc : List ExpectedToken) (c : ExpectedToken) :
    c ∈ buildCandidates found edible inedible acc ↔
      c ∈ ((edible ++ inedible).map ExpectedToken.token ++ acc)
        ∧ keepSuggestion found c = true := by
  rw [buildCandidates, mem_dedupVec,
    (List.perm_insertionSort renderLe _).mem_iff, List.mem_filter]

/-- The built candidate list is sorted by rendered text. -/
theorem buildCandidates_sorted (found : TokenKind) (edible inedible : List TokenKind)
    (acc : List ExpectedToken) :
    List.Sorted renderLe (buildCandidates found edible inedible acc) :=
  (List.sorted_insertionSort renderLe _).sublist (dedupVec_sublist _)

/-- Shape of `expected_one_of_not_found`: it always errs with the built
diagnostic and records the offending token's span (and changes nothing else
in the state). -/
theorem expected_one_of_not_found_eq (st : ParserState) (edible inedible : List TokenKind) :
    expected_one_of_not_found st edible inedible
      = ({ st with lastUnexpectedTokenSpan := some st.token.span },
         .err (builtDiag st edible inedible)) := rfl

/-- Source `expect_one_of` can return success only as `Ok(false)`. -/
theorem expect_one_of_ne_ok_true (st : ParserState) (edible inedible : List TokenKind) :
    (expect_one_of st edible inedible).2 ≠ .ok true := by
  unfold expect_one_of
  split
  · simp
  · split
    · simp
    · split
      · simp
      · rw [expected_one_of_not_found_eq]
        simp

/-- Source `expect` can return success only as `Ok(false)`. -/
theorem expect_ne_ok_true (st : ParserState) (tok : TokenKind) :
    (expect st tok).2 ≠ .ok true := by
  unfold expect
  split
  · split <;> simp
  · exact expect_one_of_ne_ok_true st [tok] []

/-- Advancing the cursor never reports a token following the current one
differently from lookahead: the token installed by `bump` has the kind of
`look_ahead 1`. -/
theorem bump_token_kind (st : ParserState) : (bump st).token.kind = (look_ahead st 1).kind := by
  have h1 : look_ahead st 1 = (st.tokens[0]?).getD Token.EOF := by
    unfold look_ahead
    norm_num
  rw [h1]
  cases h : st.tokens with
  | nil =>
    unfold bump
    rw [h]
    rfl
  | cons t ts =>
    unfold bump
    rw [h]
    simp only [List.head?_cons, List.getElem?_cons_zero, Option.getD_some]
    split <;> rfl

/-- When started with `recovered = false`, the sequence loop's successful
results always carry `recovered = false` (the only assignment is guarded by
an `Ok(true)` from `expect`, which cannot happen). -/
theorem parse_seq_loop_ok_not_recovered {α : Type} (kets : List TokenKind) (sep : SeqSep)
    (f : ParserState → ParserState × PRes α) :
    ∀ (fuel : Nat) (st : ParserState) (first trailing : Bool) (v v' : List α) (t' r' : Bool),
      (parse_seq_loop kets sep f fuel st first false trailing v).2 = .ok (v', t', r') →
      r' = false := by
  intro fuel
  induction fuel with
  | zero =>
    intro st first trailing v v' t' r' h
    simp [parse_seq_loop] at h
  | succ n ih =>
    intro st first trailing v v' t' r' h
    rw [parse_seq_loop] at h
    rcases hpk : expect_any st kets with ⟨stA, bA⟩
    rw [hpk] at h
    dsimp only at h
    by_cases hA : bA = true
    · rw [if_pos hA] at h
      simp only [PRes.ok.injEq, Prod.mk.injEq] at h
      exact h.2.2.symm
    · rw [if_neg hA] at h
      by_cases hB : isCloseDelimOrEof stA.token.kind = true
      · rw [if_pos hB] at h
        simp only [PRes.ok.injEq, Prod.mk.injEq] at h
        exact h.2.2.symm
      · rw [if_neg hB] at h
        have element_aux :
            ∀ (st0 : ParserState) (first0 : Bool) (v0 : List α),
              ((let pt := if sep.trailingSepAllowed then expect_any st0 kets else (st0, false)
                if pt.2 then (pt.1, PRes.ok (v0, true, false))
                else
                  match f pt.1 with
                  | (st3, .ok t) =>
                    parse_seq_loop kets sep f n st3 first0 false trailing (v0 ++ [t])
                  | (st3, .err e) => (st3, .err e)
                  | (st3, .fault) => (st3, PRes.fault)).2 = .ok (v', t', r')) →
              r' = false := by
          intro st0 first0 v0 h0
          dsimp only at h0
          by_cases hT : (if sep.trailingSepAllowed then expect_any st0 kets else (st0, false)).2 = true
          · rw [if_pos hT] at h0
            simp only [PRes.ok.injEq, Prod.mk.injEq] at h0
            exact h0.2.2.symm
          · rw [if_neg hT] at h0
            rcases hf : f (if sep.trailingSepAllowed then expect_any st0 kets else (st0, false)).1
              with ⟨st3, res3⟩
            rw [hf] at h0
            cases res3 with
            | ok t => exact ih st3 first0 trailing (v0 ++ [t]) v' t' r' h0
            | err e => simp at h0
            | fault => simp at h0
        rcases hsep : sep.sep with - | tk
        · simp only [hsep] at h
          exact element_aux stA first v h
        · simp only [hsep] at h
          by_cases hF : first = true
          · rw [if_pos hF] at h
            exact element_aux stA false v h
          · rw [if_neg hF] at h
            rcases he : expect stA tk with ⟨stB, resB⟩
            cases resB with
            | ok rb =>
              simp only [he] at h
              cases rb with
              | true =>
                have hne := expect_ne_ok_true stA tk
                rw [he] at hne
                exact absurd rfl hne
              | false =>
                exact element_aux stB first v h
            | err expectErr =>
              simp only [he] at h
              by_cases hreq : sep.trailingSepRequired = true
              · rw [if_pos hreq] at h
                simp at h
              · rw [if_neg hreq] at h
                rcases hf2 : f stB with ⟨stC, resC⟩
                cases resC with
                | ok t =>
                  simp only [hf2] at h
                  exact ih _ first trailing (v ++ [t]) v' t' r' h
                | err e =>
                  simp only [hf2] at h
                  by_cases hc : stC.token.kind = TokenKind.colon
                  · rw [if_pos hc] at h
                    simp at h
                  · rw [if_neg hc] at h
                    by_cases hk : kets = [TokenKind.closeDelim Delimiter.paren]
                    · rw [if_pos hk] at h
                      simp at h
                    · rw [if_neg hk] at h
                      simp only [PRes.ok.injEq, Prod.mk.injEq] at h
                      exact h.2.2.symm
                | fault =>
                  simp only [hf2] at h
                  simp at h
            | fault =>
              simp only [he] at h
              simp at h

/-- Joining a single rendering needs no connective. -/
theorem orList_singleton (s : String) : orList [s] = s := rfl

/-- The message of the built diagnostic is the cardinality-classified
message over the built candidate list. -/
theorem builtDiag_msg (st : ParserState) (edible inedible : List TokenKind) :
    (builtDiag st edible inedible).msg
      = (notFoundParts (buildCandidates st.token.kind edible inedible st.expectedTokens)
          st.token.fullDescription st.prevToken.span).1 := by
  unfold builtDiag expected_one_of_not_found
  dsimp only
  split <;> split <;> rfl

/-- The built diagnostic always carries a label with the chosen expectation
text, whichever span-labelling branch is taken. -/
theorem builtDiag_label_mem (st : ParserState) (edible inedible : List TokenKind) :
    ∃ sp, (sp, (notFoundParts (buildCandidates st.token.kind edible inedible st.expectedTokens)
      st.token.fullDescription st.prevToken.span).2.2) ∈ (builtDiag st edible inedible).labels := by
  unfold builtDiag expected_one_of_not_found
  dsimp only
  split <;> split <;>
    first
    | exact ⟨st.token.span, List.mem_singleton.mpr rfl⟩
    | exact ⟨st.prevToken.span, List.mem_append_left _ (List.mem_singleton.mpr rfl)⟩
    | exact ⟨_, List.mem_append_left _ (List.mem_singleton.mpr rfl)⟩

/-! The claim theorems. -/

/-- C5: every advance clears the expected-token set: `inlined_bump_with`
(hence `bump` and `bump_with`) leaves it empty, so an expectation
registered by a probe before an advance is never observable afterwards: a
diagnostic built right after an advance draws its candidates only from the
explicit edible/inedible sets. -/
theorem c5_advance_clears_expectations :
    (∀ st next, (inlined_bump_with st next).expectedTokens = [])
    ∧ (∀ st, (bump st).expectedTokens = [])
    ∧ (∀ st next, (bump_with st next).expectedTokens = [])
    ∧ (∀ (st : ParserState) (edible inedible : List TokenKind) (c : ExpectedToken),
        c ∈ buildCandidates (bump st).token.kind edible inedible (bump st).expectedTokens →
        ∃ k ∈ edible ++ inedible, c = .token k) := by
  refine ⟨fun st next => rfl, fun st => rfl, fun st next => rfl, ?_⟩
  intro st edible inedible c hc
  rw [mem_buildCandidates] at hc
  have hb : (bump st).expectedTokens = [] := rfl
  rw [hb, List.append_nil, List.mem_map] at hc
  obtain ⟨⟨k, hk, hkc⟩, -⟩ := hc
  exact ⟨k, hk, hkc.symm⟩

/-- Witness for C5 at a concrete state: after an advance, a candidate of a
diagnostic built with edible set `[,]` comes from that set. -/
theorem c5_witness :
    ∃ k ∈ [TokenKind.comma] ++ ([] : List TokenKind), ExpectedToken.token .comma = .token k :=
  c5_advance_clears_expectations.2.2.2 c3State [.comma] [] (.token .comma) (by decide)

/-- C6: constructing a parser over a comment-free token sequence (which
performs one initializing advance) leaves the current token at the first
token of the sequence (end-of-input when empty) and the previous token at
the dummy placeholder. -/
theorem c6_new_cursor_after_first_advance (isM : Span → Bool) (tokens : List Token)
    (hnc : ∀ t ∈ tokens, t.isComment = false) :
    (ParserState.new isM tokens).token = tokens.head?.getD Token.EOF
    ∧ (ParserState.new isM tokens).prevToken = Token.DUMMY := by
  constructor
  · unfold ParserState.new
    cases tokens with
    | nil => rfl
    | cons t ts =>
      unfold bump inlined_bump_with
      simp only [List.head?_cons, Option.getD_some, List.tail_cons]
      split
      · rename_i hd
        have hspan : t.span = Span.DUMMY := by
          have := of_decide_eq_true (by simpa [Span.isDummy] using hd)
          exact this
        cases t with
        | mk k sp =>
          simp only at hspan
          rw [hspan]
          rfl
      · rfl
  · rfl

/-- Witness for C6 on the concrete comment-free sequence of `(x y)`. -/
theorem c6_witness :
    (ParserState.new smFalse parenXYTokens).token = parenXYTokens.head?.getD Token.EOF
    ∧ (ParserState.new smFalse parenXYTokens).prevToken = Token.DUMMY :=
  c6_new_cursor_after_first_advance smFalse parenXYTokens (by decide)

/-- C7: an identifier token that is reserved in the current mode: with
recovery the diagnostic is emitted non-fatally, the token is consumed, and
the keyword's identifier is returned; without recovery the same diagnostic
is a hard error and nothing is consumed or emitted. -/
theorem c7_reserved_ident_recovery (st : ParserState) (s : String)
    (hk : st.token.kind = .ident s)
    (hr : Ident.isReserved ⟨s, st.token.span⟩ st.inYul = true) :
    parse_ident_common st true
        = (bump (emit st (expected_ident_found_err st)), .ok ⟨s, st.token.span⟩)
    ∧ parse_ident_common st false = (st, .err (expected_ident_found_err st)) := by
  have hident : st.token.ident? = some ⟨s, st.token.span⟩ := by
    unfold Token.ident?
    rw [hk]
  constructor
  · unfold parse_ident_common ident_or_err
    simp only [hident]
    rw [hr]
    rfl
  · unfold parse_ident_common ident_or_err
    simp only [hident]
    rw [hr]
    rfl

/-- Witness for C7 at the reserved word `contract`. -/
theorem c7_witness :
    parse_ident_common reservedState true
        = (bump (emit reservedState (expected_ident_found_err reservedState)),
           .ok ⟨"contract", reservedState.token.span⟩)
    ∧ parse_ident_common reservedState false
        = (reservedState, .err (expected_ident_found_err reservedState)) :=
  c7_reserved_ident_recovery reservedState "contract" rfl (by decide)

/-- C8: comma-elision recovery: at an identifier position whose current
token is a comma with an identifier one lookahead ahead, the comma is
consumed, a non-fatal diagnostic with a "remove this comma" help on the
comma's span is emitted, and the following identifier is returned. -/
theorem c8_comma_elision_recovery (st : ParserState) (s : String)
    (hc : st.token.kind = .comma)
    (hl : (look_ahead st 1).kind = .ident s) :
    expected_ident_found st true
      = (emit (bump st)
          (Diag.spanHelp
            (mkErr ("expected identifier, found " ++ st.token.fullDescription) st.token.span)
            st.token.span "remove this comma"),
         .ok ⟨s, (bump st).token.span⟩) := by
  have hbident : (bump st).token.ident? = some ⟨s, (bump st).token.span⟩ := by
    unfold Token.ident?
    rw [bump_token_kind, hl]
  have hla : (look_ahead st 1).isIdent = true := by
    unfold Token.isIdent Token.ident?
    rw [hl]
    rfl
  unfold expected_ident_found ident_or_err_norec
  simp only [hc, hla, hbident, beq_self_eq_true, Bool.and_self, if_true]

/-- Witness for C8 at the concrete input `, foo`. -/
theorem c8_witness :
    expected_ident_found commaFooState true
      = (emit (bump commaFooState)
          (Diag.spanHelp
            (mkErr ("expected identifier, found " ++ commaFooState.token.fullDescription)
              commaFooState.token.span)
            commaFooState.token.span "remove this comma"),
         .ok ⟨"foo", (bump commaFooState).token.span⟩) :=
  c8_comma_elision_recovery commaFooState "foo" rfl rfl

/-- C9: the context toggles set their flag for the nested callback and
restore the prior value on every result — the result (success or failure
alike) is exactly the callback's, and the flag seen afterwards is the prior
one, at every nesting depth (the callback is arbitrary). -/
theorem c9_context_toggles_restore (R : Type) (f : ParserState → ParserState × R)
    (st : ParserState) :
    (in_yul st f).1.inYul = st.inYul
    ∧ (in_yul st f).2 = (f { st with inYul := true }).2
    ∧ (in_yul st f).1 = { (f { st with inYul := true }).1 with inYul := st.inYul }
    ∧ (in_contract st f).1.inContract = st.inContract
    ∧ (in_contract st f).2 = (f { st with inContract := true }).2
    ∧ (in_contract st f).1
        = { (f { st with inContract := true }).1 with inContract := st.inContract } :=
  ⟨rfl, rfl, rfl, rfl, rfl, rfl⟩

/-- C3 counterexample: at a `;` with empty edible/inedible sets and an
empty accumulated expectation set (the state right after an advance —
exactly the `unexpected()` entry point), `expect_one_of` returns an error
whose message is "unexpected token: `;`", which is not of the
"expected ..., found ..." form the claim states. -/
theorem c3_counterexample :
    (expect_one_of c3State [] []).2 = .err (builtDiag c3State [] [])
    ∧ (builtDiag c3State [] []).msg = "unexpected token: `;`"
    ∧ strStarts "expected" (builtDiag c3State [] []).msg = false := by
  refine ⟨by decide, by decide, by decide⟩

/-- C3 amended: `expect_one_of` consumes the token and succeeds when its
kind is edible; succeeds without consuming when inedible; is a
programming-error fault when the token is not end-of-input and its span is
the recorded last-unexpected span; and otherwise returns the built
unexpected-token diagnostic ("expected ..., found ..." when candidates
remain, "unexpected token: ..." when none — see C4) as an error, recording
the offending token's span. -/
theorem c3_expect_one_of_behavior (st : ParserState) (edible inedible : List TokenKind) :
    (st.token.kind ∈ edible → expect_one_of st edible inedible = (bump st, .ok false))
    ∧ (st.token.kind ∉ edible → st.token.kind ∈ inedible →
        expect_one_of st edible inedible = (st, .ok false))
    ∧ (st.token.kind ∉ edible → st.token.kind ∉ inedible → st.token.kind ≠ .eof →
        st.lastUnexpectedTokenSpan = some st.token.span →
        expect_one_of st edible inedible = (st, .fault))
    ∧ (st.token.kind ∉ edible → st.token.kind ∉ inedible →
        ¬(st.token.kind ≠ .eof ∧ st.lastUnexpectedTokenSpan = some st.token.span) →
        expect_one_of st edible inedible
          = ({ st with lastUnexpectedTokenSpan := some st.token.span },
             .err (builtDiag st edible inedible))) := by
  refine ⟨?_, ?_, ?_, ?_⟩
  · intro h
    unfold expect_one_of
    rw [if_pos h]
  · intro h1 h2
    unfold expect_one_of
    rw [if_neg h1, if_pos h2]
  · intro h1 h2 h3 h4
    unfold expect_one_of
    rw [if_neg h1, if_neg h2, if_pos ⟨h3, h4⟩]
  · intro h1 h2 h3
    unfold expect_one_of
    rw [if_neg h1, if_neg h2, if_neg h3]
    exact expected_one_of_not_found_eq st edible inedible

/-- Witness for C3 exercising all four branches at concrete states. -/
theorem c3_witness :
    expect_one_of c3State [TokenKind.semi] [] = (bump c3State, .ok false)
    ∧ expect_one_of c3State [] [TokenKind.semi] = (c3State, .ok false)
    ∧ expect_one_of c3FaultState [] [] = (c3FaultState, .fault)
    ∧ expect_one_of c3State [] []
        = ({ c3State with lastUnexpectedTokenSpan := some c3State.token.span },
           .err (builtDiag c3State [] [])) := by
  refine ⟨(c3_expect_one_of_behavior c3State [.semi] []).1 (by decide),
    (c3_expect_one_of_behavior c3State [] [.semi]).2.1 (by decide) (by decide),
    (c3_expect_one_of_behavior c3FaultState [] []).2.2.1 (by decide) (by decide) (by decide)
      (by decide),
    (c3_expect_one_of_behavior c3State [] []).2.2.2 (by decide) (by decide) (by decide)⟩

/-- C4 counterexample: with the found token `;`, the edible token
expectation for the identifier `x`, and the accumulated keyword expectation
`x`, the two candidates render identically but are distinct records;
`Vec::dedup` keeps both and the code says "expected one of `x` or `x`,
found `;`", while deduplication by textual rendering — as the claim states
— would leave one candidate and say "expected `x`, found `;`". -/
theorem c4_counterexample :
    (builtDiag c4State [.ident "x"] []).msg = "expected one of `x` or `x`, found `;`"
    ∧ claimMessageC4 c4State.token [.ident "x"] [] c4State.expectedTokens
        = "expected `x`, found `;`"
    ∧ (builtDiag c4State [.ident "x"] []).msg
        ≠ claimMessageC4 c4State.token [.ident "x"] [] c4State.expectedTokens := by
  refine ⟨by decide, by decide, by decide⟩

/-- C4 amended: the candidate list merges the edible and inedible tokens
with the accumulated expectation set, drops exactly the token expectations
of the found token's kind and the keyword expectations spelling the found
identifier's text, is sorted by rendered text, and is deduplicated by
record equality (not by rendering); the message is "unexpected token: Y"
for zero candidates, "expected X, found Y" for one, "expected one of ...,
found Y" for two or more, and the label collapses to an "N possible
tokens" summary once the list exceeds six entries. -/
theorem c4_candidates_and_message (st : ParserState) (edible inedible : List TokenKind) :
    (∀ c ∈ buildCandidates st.token.kind edible inedible st.expectedTokens,
        dropSpec st.token.kind c = false)
    ∧ (∀ e ∈ (edible ++ inedible).map ExpectedToken.token ++ st.expectedTokens,
        dropSpec st.token.kind e = false →
        e ∈ buildCandidates st.token.kind edible inedible st.expectedTokens)
    ∧ List.Sorted renderLe (buildCandidates st.token.kind edible inedible st.expectedTokens)
    ∧ (buildCandidates st.token.kind edible inedible st.expectedTokens = [] →
        (builtDiag st edible inedible).msg
          = "unexpected token: " ++ st.token.fullDescription)
    ∧ (∀ c, buildCandidates st.token.kind edible inedible st.expectedTokens = [c] →
        (builtDiag st edible inedible).msg
          = "expected " ++ c.render ++ ", found " ++ st.token.fullDescription)
    ∧ (∀ a b t, buildCandidates st.token.kind edible inedible st.expectedTokens = a :: b :: t →
        (builtDiag st edible inedible).msg
          = "expected one of " ++ ExpectedToken.toStringMany (a :: b :: t)
              ++ ", found " ++ st.token.fullDescription)
    ∧ (∀ a b t, buildCandidates st.token.kind edible inedible st.expectedTokens = a :: b :: t →
        ∃ sp, (sp, "expected one of "
            ++ (if (a :: b :: t).length > 6
                then toString (a :: b :: t).length ++ " possible tokens"
                else ExpectedToken.toStringMany (a :: b :: t)))
          ∈ (builtDiag st edible inedible).labels) := by
  refine ⟨?_, ?_, buildCandidates_sorted _ _ _ _, ?_, ?_, ?_, ?_⟩
  · intro c hc
    rw [mem_buildCandidates] at hc
    have h2 := hc.2
    rw [keep_iff_not_drop] at h2
    simpa using h2
  · intro e he hd
    rw [mem_buildCandidates]
    refine ⟨he, ?_⟩
    rw [keep_iff_not_drop, hd]
    rfl
  · intro hnil
    rw [builtDiag_msg, hnil]
    rfl
  · intro c hc
    rw [builtDiag_msg, hc]
    rfl
  · intro a b t h
    rw [builtDiag_msg, h]
    rfl
  · intro a b t h
    have hmem := builtDiag_label_mem st edible inedible
    rw [h] at hmem
    exact hmem

/-- Witness for C4: at the counterexample state, a kept candidate satisfies
the drop rule negatively and the two-or-more message classification holds
with the two identically-rendering candidates. -/
theorem c4_witness :
    dropSpec c4State.token.kind (.token (.ident "x")) = false
    ∧ (builtDiag c4State [.ident "x"] []).msg
        = "expected one of "
            ++ ExpectedToken.toStringMany [.token (.ident "x"), .keyword "x"]
            ++ ", found " ++ c4State.token.fullDescription := by
  constructor
  · exact (c4_candidates_and_message c4State [.ident "x"] []).1 (.token (.ident "x")) (by decide)
  · exact (c4_candidates_and_message c4State [.ident "x"] []).2.2.2.2.2.1
      (.token (.ident "x")) (.keyword "x") [] (by decide)

/-- C1: when a separator is configured, trailing separators are not
required, and expecting the separator before a non-first element fails,
the element callback is speculatively invoked with no separator consumed;
if it succeeds, the separator-expectation diagnostic is emitted as a
non-fatal diagnostic with a "missing `sep`" help note anchored just after
the previous token, the parsed element is kept, and the loop continues.
Concretely, `(x y)` with comma separator and identifier elements succeeds
with elements `x`, `y` and exactly one emitted diagnostic, whose sole child
is that help note. -/
theorem c1_missing_separator_recovery :
    (∀ (α : Type) (kets : List TokenKind) (sep : SeqSep)
        (f : ParserState → ParserState × PRes α) (fuel : Nat)
        (st st1 st2 st3 : ParserState) (tk : TokenKind) (expectErr : Diag) (t : α)
        (recovered trailing : Bool) (v : List α),
        expect_any st kets = (st1, false) →
        isCloseDelimOrEof st1.token.kind = false →
        sep.sep = some tk →
        sep.trailingSepRequired = false →
        expect st1 tk = (st2, .err expectErr) →
        f st2 = (st3, .ok t) →
        parse_seq_loop kets sep f (fuel + 1) st false recovered trailing v
          = parse_seq_loop kets sep f fuel
              (emit st3 (expectErr.spanHelp st2.prevToken.span.shrinkToHi
                ("missing `" ++ tk.toStr ++ "`")))
              false recovered trailing (v ++ [t]))
    ∧ parenXYRun.2 = .ok ([⟨"x", ⟨1, 2⟩⟩, ⟨"y", ⟨3, 4⟩⟩], false)
    ∧ parenXYRun.1.emitted.length = 1
    ∧ parenXYRun.1.emitted.head?.map Diag.children = some [⟨.help, "missing `,`", ⟨2, 2⟩⟩] := by
  refine ⟨?_, by decide, by decide, by decide⟩
  intro α kets sep f fuel st st1 st2 st3 tk expectErr t recovered trailing v h1 h2 h3 h4 h5 h6
  rw [parse_seq_loop, h1]
  simp only [h2, h3, h4, h5, h6, Bool.false_eq_true, if_false]

/-- Witness for C1: the recovery step instantiated at the mid-sequence
state sitting at `y` after `x`, with the identifier element parser. -/
theorem c1_witness :
    parse_seq_loop midKets (SeqSep.trailingDisallowed .comma) parse_ident 4 midSeqState
        false false false []
      = parse_seq_loop midKets (SeqSep.trailingDisallowed .comma) parse_ident 3
          (emit midSt3 (midErr.spanHelp midSt2.prevToken.span.shrinkToHi
            ("missing `" ++ TokenKind.toStr .comma ++ "`")))
          false false false [⟨"y", ⟨3, 4⟩⟩] :=
  c1_missing_separator_recovery.1 Ident midKets (SeqSep.trailingDisallowed .comma) parse_ident 3
    midSeqState midSt1 midSt2 midSt3 .comma midErr ⟨"y", ⟨3, 4⟩⟩ false false []
    rfl rfl rfl rfl rfl rfl

/-- C2: when the speculative element parse after a failed separator
expectation itself fails, the failure's child diagnostics are folded into
the separator-expectation diagnostic (and the failure's own diagnostic is
cancelled, never emitted); then with a `:` at the cursor, or with the
terminator set exactly the single closing parenthesis, the combined
diagnostic is returned as an error without being emitted; otherwise it is
emitted and the loop stops early, returning the elements collected so far
together with the recovered flag. -/
theorem c2_failed_speculation_escalation :
    ∀ (α : Type) (kets : List TokenKind) (sep : SeqSep)
      (f : ParserState → ParserState × PRes α) (fuel : Nat)
      (st st1 st2 st3 : ParserState) (tk : TokenKind) (expectErr e : Diag)
      (recovered trailing : Bool) (v : List α),
      expect_any st kets = (st1, false) →
      isCloseDelimOrEof st1.token.kind = false →
      sep.sep = some tk →
      sep.trailingSepRequired = false →
      expect st1 tk = (st2, .err expectErr) →
      f st2 = (st3, .err e) →
      parse_seq_loop kets sep f (fuel + 1) st false recovered trailing v
        = (if st3.token.kind = TokenKind.colon then
            (st3, .err { expectErr with children := expectErr.children ++ e.children })
          else if kets = [TokenKind.closeDelim Delimiter.paren] then
            (st3, .err { expectErr with children := expectErr.children ++ e.children })
          else
            (emit st3 { expectErr with children := expectErr.children ++ e.children },
             .ok (v, trailing, recovered))) := by
  intro α kets sep f fuel st st1 st2 st3 tk expectErr e recovered trailing v h1 h2 h3 h4 h5 h6
  rw [parse_seq_loop, h1]
  simp only [h2, h3, h4, h5, h6, Bool.false_eq_true, if_false]

/-- Witness for C2: the escalation step at the mid-sequence state with an
always-failing element parser; the terminator is a closing brace and the
cursor is not at `:`, so the combined diagnostic is emitted and the loop
stops with the elements collected so far. -/
theorem c2_witness :
    parse_seq_loop midKets (SeqSep.trailingDisallowed .comma) alwaysFailElem 4 midSeqState
        false false false []
      = (emit midSt2 { midErr with children := midErr.children ++ midFailDiag.children },
         .ok ([], false, false)) := by
  have h := c2_failed_speculation_escalation Ident midKets (SeqSep.trailingDisallowed .comma)
    alwaysFailElem 3 midSeqState midSt1 midSt2 midSt2 .comma midErr midFailDiag false false []
    rfl rfl rfl rfl rfl rfl
  rw [h]
  rfl

/-- C10: `expect` and `expect_one_of` never succeed with a `true` recovered
flag; consequently the sequence loop's successful results always carry
`recovered = false`, and `parse_seq_to_end` always attempts to eat the
terminator after a successful inner parse. -/
theorem c10_success_never_recovered :
    (∀ st tok, (expect st tok).2 ≠ .ok true)
    ∧ (∀ st edible inedible, (expect_one_of st edible inedible).2 ≠ .ok true)
    ∧ (∀ (α : Type) (fuel : Nat) (kets : List TokenKind) (sep : SeqSep)
        (f : ParserState → ParserState × PRes α) (st : ParserState)
        (v : List α) (trailing r : Bool),
        (parse_seq_to_before_tokens fuel kets sep f st).2 = .ok (v, trailing, r) → r = false)
    ∧ (∀ (α : Type) (fuel : Nat) (ket : TokenKind) (sep : SeqSep)
        (f : ParserState → ParserState × PRes α) (st st1 : ParserState)
        (v : List α) (trailing r : Bool),
        parse_seq_to_before_end fuel ket sep f st = (st1, .ok (v, trailing, r)) →
        parse_seq_to_end fuel ket sep f st = ((eat st1 ket).1, .ok (v, trailing))) := by
  refine ⟨expect_ne_ok_true, expect_one_of_ne_ok_true, ?_, ?_⟩
  · intro α fuel kets sep f st v trailing r h
    exact parse_seq_loop_ok_not_recovered kets sep f fuel st true false [] v trailing r h
  · intro α fuel ket sep f st st1 v trailing r h
    have h2 : (parse_seq_to_before_end fuel ket sep f st).2 = .ok (v, trailing, r) := by
      rw [h]
    have hr : r = false :=
      parse_seq_loop_ok_not_recovered [ket] sep f fuel st true false [] v trailing r h2
    subst hr
    unfold parse_seq_to_end
    simp only [h, Bool.not_false, if_true]

/-- Witness for C10: parsing the body of `(x)` succeeds unrecovered, and
`parse_seq_to_end` then eats the closing parenthesis. -/
theorem c10_witness :
    parse_seq_to_end 10 (TokenKind.closeDelim .paren) (SeqSep.trailingDisallowed .comma)
        parse_ident parenXAfterBra
      = ((eat parenXBeforeEndSt (TokenKind.closeDelim .paren)).1, .ok ([⟨"x", ⟨1, 2⟩⟩], false)) :=
  c10_success_never_recovered.2.2.2 Ident 10 (TokenKind.closeDelim .paren)
    (SeqSep.trailingDisallowed .comma) parse_ident parenXAfterBra parenXBeforeEndSt
    [⟨"x", ⟨1, 2⟩⟩] false false rfl

end Solar
